import Mathlib

/-!
A shallow embedding of the `dvd_rw` cassette matching/replay engine
(`src/dvd_rw/models.py`, `src/dvd_rw/loader.py`) together with models of the
pieces of the Python standard library the engine relies on
(`urllib.parse.urlparse` / `urllib.parse.parse_qs`), and spec-modelled
definitions for the parts of the repository that are referenced by the unit
tests and the loader but whose source is not present (`patcher.py`,
`filter_headers`, `before_record_request`).

Machine integers do not occur in the engine; strings are Lean `String`s and
character-level parsing recursions are structural over `List Char`.
-/

set_option autoImplicit false

namespace DvdRw

/-! ## Character-level helpers (models of `urllib.parse` internals)

`Request.host/path/query/scheme` are derived in `models.py` via
`urllib.parse.urlparse` and `urllib.parse.parse_qs`.  The functions below model
those standard-library routines at the code-point level (Python's `unquote`
additionally performs UTF-8 byte decoding; for the ASCII data handled here the
two agree). -/

/-- Lowercase a single ASCII character (model of `str.lower` per character). -/
def lower_char (c : Char) : Char :=
  if 'A' ≤ c ∧ c ≤ 'Z' then Char.ofNat (c.toNat + 32) else c

/-- Lowercase a string (model of `str.lower`). -/
def lower_str (s : String) : String :=
  String.mk (s.data.map lower_char)

/-- Split a character list at every occurrence of `c`
(model of `str.split(c)`: `split_on_char c "a&b&" = ["a", "b", ""]`). -/
def split_on_char (c : Char) : List Char → List (List Char)
  | [] => [[]]
  | a :: rest =>
    if a = c then
      [] :: split_on_char c rest
    else
      match split_on_char c rest with
      | [] => [[a]]
      | h :: t => (a :: h) :: t

/-- Split at the first occurrence of `c`: returns `(before, after)`, with
`after = []` and `before` the whole input when `c` does not occur
(model of `str.partition(c)` keeping only the outer parts). -/
def split_first (c : Char) : List Char → List Char × List Char
  | [] => ([], [])
  | a :: rest =>
    if a = c then ([], rest)
    else
      let p := split_first c rest
      (a :: p.1, p.2)

/-- Like `split_first` but returns `none` when `c` does not occur
(used to model `str.split(c, 1)` where presence matters). -/
def split_first_opt (c : Char) : List Char → Option (List Char × List Char)
  | [] => none
  | a :: rest =>
    if a = c then some ([], rest)
    else
      match split_first_opt c rest with
      | none => none
      | some p => some (a :: p.1, p.2)

/-- Longest prefix not containing any character of `stops`, with the rest
(the stop character stays at the head of the rest). -/
def take_until (stops : List Char) : List Char → List Char × List Char
  | [] => ([], [])
  | a :: rest =>
    if stops.contains a then ([], a :: rest)
    else
      let p := take_until stops rest
      (a :: p.1, p.2)

/-- The suffix after the last occurrence of `c` (the whole list when `c` does
not occur); model of `str.rpartition(c)[2]`. -/
def after_last (c : Char) (cs : List Char) : List Char :=
  ((take_until [c] cs.reverse).1).reverse

/-- Value of a hexadecimal digit. -/
def hex_val (c : Char) : Option Nat :=
  if '0' ≤ c ∧ c ≤ '9' then some (c.toNat - '0'.toNat)
  else if 'a' ≤ c ∧ c ≤ 'f' then some (c.toNat - 'a'.toNat + 10)
  else if 'A' ≤ c ∧ c ≤ 'F' then some (c.toNat - 'A'.toNat + 10)
  else none

/-- Percent-decoding (model of `urllib.parse.unquote` at code-point level);
invalid escape sequences are left untouched, as in Python. -/
def unquote_chars : List Char → List Char
  | '%' :: a :: b :: rest =>
    match hex_val a, hex_val b with
    | some x, some y => Char.ofNat (16 * x + y) :: unquote_chars rest
    | _, _ => '%' :: unquote_chars (a :: b :: rest)
  | c :: rest => c :: unquote_chars rest
  | [] => []

/-- `+` becomes a space before percent-decoding (`unquote_plus`). -/
def plus_to_space (cs : List Char) : List Char :=
  cs.map (fun c => if c = '+' then ' ' else c)

/-- Model of `urllib.parse.unquote_plus`. -/
def unquote_plus (cs : List Char) : List Char :=
  unquote_chars (plus_to_space cs)

/-- Model of `urllib.parse.parse_qsl` with its default arguments
(`keep_blank_values=False`, separator `'&'`): fields without `'='` or with an
empty value are dropped; names and values are `unquote_plus`-decoded. -/
def parse_qsl (qs : List Char) : List (String × String) :=
  (split_on_char '&' qs).filterMap fun field =>
    if field = [] then none
    else
      match split_first_opt '=' field with
      | none => none
      | some nv =>
        if nv.2 = [] then none
        else some (String.mk (unquote_plus nv.1), String.mk (unquote_plus nv.2))

/-- Append one `(key, value)` pair to a grouped query mapping, preserving the
insertion order of keys (model of `dict.setdefault(name, []).append(value)`). -/
def add_query_pair (acc : List (String × List String)) (k v : String) :
    List (String × List String) :=
  if acc.any (fun p => p.1 = k) then
    acc.map (fun p => if p.1 = k then (p.1, p.2 ++ [v]) else p)
  else
    acc ++ [(k, [v])]

/-- Model of `urllib.parse.parse_qs`: the parsed pairs grouped into an ordered
mapping of key to ordered value list.  Python returns a `dict`; insertion order
(first appearance of each key) is observable through `dict.items()`, which is
what the engine's query hasher consumes. -/
def parse_qs (qs : List Char) : List (String × List String) :=
  (parse_qsl qs).foldl (fun acc p => add_query_pair acc p.1 p.2) []

/-! ## Model of `urllib.parse.urlparse` (the components used by `Request`) -/

def is_ascii_alpha (c : Char) : Bool :=
  ('a' ≤ c ∧ c ≤ 'z') ∨ ('A' ≤ c ∧ c ≤ 'Z')

def is_scheme_char (c : Char) : Bool :=
  is_ascii_alpha c || ('0' ≤ c ∧ c ≤ '9') || c = '+' || c = '-' || c = '.'

/-- Split off the URL scheme: the prefix before the first `':'` when it is a
nonempty run of scheme characters starting with a letter, lowercased (as in
`urllib.parse.urlsplit`). -/
def split_scheme (cs : List Char) : List Char × List Char :=
  match split_first_opt ':' cs with
  | none => ([], cs)
  | some p =>
    match p.1 with
    | [] => ([], cs)
    | c0 :: _ =>
      if is_ascii_alpha c0 ∧ p.1.all is_scheme_char then
        (p.1.map lower_char, p.2)
      else ([], cs)

/-- Split off the network location: present only after a leading `"//"`, and
extends to the next `'/'`, `'?'` or `'#'`. -/
def split_netloc : List Char → List Char × List Char
  | '/' :: '/' :: rest => take_until ['/', '?', '#'] rest
  | cs => ([], cs)

/-- The four URL components the engine reads.  `fragment` is split off (first
`'#'`) and discarded, then `query` is what follows the first `'?'`, as in
`urllib.parse.urlsplit`. -/
structure UrlParts where
  scheme : List Char
  netloc : List Char
  path : List Char
  query : List Char
deriving DecidableEq, Repr

def urlparse (url : String) : UrlParts :=
  let sr := split_scheme url.data
  let nr := split_netloc sr.2
  let no_fragment := (split_first '#' nr.2).1
  let pq := split_first '?' no_fragment
  ⟨sr.1, nr.1, pq.1, pq.2⟩

/-- Model of `ParseResult.hostname`: the part of the netloc after the last
`'@'`, up to the port separator (`'['…`']'` for IPv6 literals), lowercased.
Python yields `None` for an empty netloc; this model yields `""`. -/
def hostname_of (netloc : List Char) : List Char :=
  let h := after_last '@' netloc
  let core :=
    match h with
    | '[' :: rest => (take_until [']'] rest).1
    | _ => (split_first ':' h).1
  core.map lower_char

/-! ## Data model (`src/dvd_rw/models.py`) -/

/-- `models.Request` (lines 11-34): stored fields `headers`, `method`, `url`;
`host`, `path`, `query`, `scheme` are derived from `urlparse(self.url)`. -/
structure Request where
  headers : List (String × String)
  method : String
  url : String
deriving DecidableEq, Repr

def Request.host (r : Request) : String :=
  String.mk (hostname_of (urlparse r.url).netloc)

def Request.path (r : Request) : String :=
  String.mk (urlparse r.url).path

def Request.query (r : Request) : List (String × List String) :=
  parse_qs (urlparse r.url).query

def Request.scheme (r : Request) : String :=
  String.mk (urlparse r.url).scheme

/-- `models.Response` (lines 37-40). -/
structure Response where
  status : Nat
  headers : List (String × String)
  body : Option (List UInt8)
deriving DecidableEq, Repr

/-- Model of a Python exception class as the engine observes it
(`exc_type` is an `ImportString` resolving to the class object).  The two
flags record the only facts the replay path in `get_request` can observe:
whether `cls(message, request=...)` constructs (otherwise it raises
`TypeError`), and whether `cls(message)` constructs (otherwise the
construction raises an `Exception`).  The raised reconstruction is assumed to
be an `Exception` (not a bare `BaseException`) as every `httpx` error is. -/
structure ExcClass where
  ctor_accepts_request : Bool
  ctor_accepts_message_only : Bool
deriving DecidableEq, Repr

/-- `models.RequestExceptionInfo` (lines 43-51). -/
structure RequestExceptionInfo where
  exc_type : ExcClass
  message : String
deriving DecidableEq, Repr

/-- A raw (not yet serialized) exception as passed to `record_request`;
`str(exc)` is its `text`. -/
structure RawExc where
  cls : ExcClass
  text : String
deriving DecidableEq, Repr

/-- `RequestExceptionInfo.from_exception` (lines 48-51). -/
def from_exception (e : RawExc) : RequestExceptionInfo :=
  ⟨e.cls, e.text⟩

/-- `models.Matcher` (lines 54-60). -/
inductive Matcher where
  | host
  | method
  | path
  | query
  | headers
  | scheme
deriving DecidableEq, Repr

/-- One component of a request fingerprint: the codomain of the
`BUILTIN_MATCHER_HASHERS` entries (lines 63-72). -/
inductive HashVal where
  | str (s : String)
  | query (q : List (String × List String))
  | headers (h : List (String × String))
deriving DecidableEq, Repr

/-- `BUILTIN_MATCHER_HASHERS` (lines 63-72).  For `Matcher.query` the Python
code builds `tuple({key: tuple(value) for key, value in r.query.items()}.items())`:
the dict comprehension maps over the `parse_qs` dict without changing keys, so
the resulting tuple lists the parsed `(key, values)` pairs in their insertion
(first-appearance) order — exactly `r.query` itself. -/
def hash_matcher : Matcher → Request → HashVal
  | Matcher.host, r => HashVal.str r.host
  | Matcher.method, r => HashVal.str r.method
  | Matcher.path, r => HashVal.str r.path
  | Matcher.query, r => HashVal.query r.query
  | Matcher.headers, r => HashVal.headers r.headers
  | Matcher.scheme, r => HashVal.str r.scheme

/-- A fingerprint: the tuple of per-matcher projections. -/
abbrev Key : Type := List HashVal

/-- The stored value of a recorded entry: `Response | RequestExceptionInfo`. -/
inductive RecValue where
  | response (r : Response)
  | excInfo (e : RequestExceptionInfo)
deriving DecidableEq, Repr

/-- The `value` argument of `record_request`
(`Response | RequestExceptionInfo | BaseException`, line 133). -/
inductive RecordInput where
  | value (v : RecValue)
  | raw (e : RawExc)
deriving DecidableEq, Repr

/-- Lines 137-139: a raw exception is converted with
`RequestExceptionInfo.from_exception`; anything already serializable is kept. -/
def to_rec_value : RecordInput → RecValue
  | RecordInput.value v => v
  | RecordInput.raw e => RecValue.excInfo (from_exception e)

/-- `models.CannotRecord` (lines 84-85). -/
inductive RecordError where
  | cannotRecord
deriving DecidableEq, Repr

/-- `models.DVD` (lines 88-109).  `match_counts` models the
`defaultdict(int)` `_match_counts` and `hashed_requests` the
`defaultdict(list)` `_hashed_requests`; both are total functions with the
defaultdict's default as value elsewhere. -/
structure DVD where
  recorded_requests : List (Request × RecValue)
  match_counts : Nat → Nat
  hashed_requests : Key → List (Nat × Request × RecValue)
  from_file : Bool
  dirty : Bool
  match_on : List Matcher
  extra_matchers : List (Request → Request → Bool)

/-- The default `match_on` list (lines 101-108). -/
def default_match_on : List Matcher :=
  [Matcher.host, Matcher.method, Matcher.path, Matcher.query,
   Matcher.headers, Matcher.scheme]

/-- A freshly created writable cassette (as built by `DVDLoader.load` when the
file does not exist: `recorded_requests=[]`, `from_file=False`, empty
defaultdicts, `dirty=False`). -/
def fresh_dvd (m : List Matcher) (extra : List (Request → Request → Bool)) : DVD :=
  { recorded_requests := []
    match_counts := fun _ => 0
    hashed_requests := fun _ => []
    from_file := false
    dirty := false
    match_on := m
    extra_matchers := extra }

/-- `DVD._get_request_key` (lines 119-122). -/
def get_request_key (d : DVD) (request : Request) : Key :=
  d.match_on.map (fun m => hash_matcher m request)

/-- Fingerprint under an explicit matcher list (the same computation as
`get_request_key`, exposed for stating index lemmas). -/
def key_of (m : List Matcher) (request : Request) : Key :=
  m.map (fun t => hash_matcher t request)

/-- The index produced by the `for idx, (req, val) in enumerate(...)` loop of
`rebuild_index` (lines 115-117): entry `idx` is appended to the bucket of its
key, so each bucket lists its entries in ascending `idx` order.  `i` is the
index of the first entry of the remaining list. -/
def build_index_from (m : List Matcher) (i : Nat) :
    List (Request × RecValue) → Key → List (Nat × Request × RecValue)
  | [], _ => []
  | (q, v) :: rest, k =>
    (if k = key_of m q then [(i, q, v)] else []) ++ build_index_from m (i + 1) rest k

/-- `DVD.rebuild_index` (lines 111-117): reset both defaultdicts, then re-insert
every recorded entry in sequence order. -/
def rebuild_index (d : DVD) : DVD :=
  { d with
    hashed_requests := fun k => build_index_from d.match_on 0 d.recorded_requests k
    match_counts := fun _ => 0 }

/-- `DVD._records` (lines 124-130): the bucket of the incoming request's key,
filtered by the extra matchers (applied to the recorded request and the
incoming one), yielding `(index, rec_value)` pairs. -/
def records (d : DVD) (request : Request) : List (Nat × RecValue) :=
  ((d.hashed_requests (get_request_key d request)).filter
      (fun e => d.extra_matchers.all (fun f => f e.2.1 request))).map
    (fun e => (e.1, e.2.2))

/-- The mutation performed by `record_request` after its guard (lines 140-145):
append to the key's bucket (using the pre-append length as index), append to
`recorded_requests`, set `dirty`. -/
def record_entry (d : DVD) (request : Request) (v : RecValue) : DVD :=
  { d with
    hashed_requests := fun k =>
      if k = get_request_key d request then
        d.hashed_requests k ++ [(d.recorded_requests.length, request, v)]
      else d.hashed_requests k
    recorded_requests := d.recorded_requests ++ [(request, v)]
    dirty := true }

/-- `DVD.record_request` (lines 132-145).  The `CannotRecord` guard comes
first, before any mutation, so a replay-only cassette is returned unchanged
(the `Except.error` branch produces no successor state). -/
def record_request (d : DVD) (request : Request) (value : RecordInput) :
    Except RecordError DVD :=
  if d.from_file then Except.error RecordError.cannotRecord
  else Except.ok (record_entry d request (to_rec_value value))

/-- `self._match_counts[index] += 1` on a `defaultdict(int)`. -/
def consume (d : DVD) (i : Nat) : DVD :=
  { d with
    match_counts := fun j => if j = i then d.match_counts j + 1 else d.match_counts j }

/-- The reconstructed exception surfaced by `get_request` when it replays a
`RequestExceptionInfo` (lines 162-176): either the captured kind (with the
originating request attached) or the `httpx.RequestError` fallback carrying
the original message. -/
inductive RaisedExc where
  | ofKind (cls : ExcClass) (message : String) (request_attached : Bool)
  | requestError (message : String)
deriving DecidableEq, Repr

/-- Lines 170-176 of `get_request`:
```
try:
    raise exc_cls(exc_info.message, request=req_obj)
except TypeError:
    try:
        raise exc_cls(exc_info.message)
    except Exception:
        raise httpx.RequestError(exc_info.message, request=req_obj)
```
When `exc_cls(message, request=req_obj)` constructs, the raised exception
propagates (it is not a `TypeError`).  When that construction raises
`TypeError`, the inner `try` runs: if `exc_cls(message)` constructs, the
`raise` succeeds — but the raised exception is itself immediately caught by
the bare `except Exception`, which raises `httpx.RequestError` instead; if the
construction fails, the same `except Exception` catches that failure.  Either
way the inner branch surfaces the `RequestError` fallback. -/
def reconstruct_and_raise (cls : ExcClass) (message : String) : RaisedExc :=
  if cls.ctor_accepts_request then
    RaisedExc.ofKind cls message true
  else
    if cls.ctor_accepts_message_only then
      RaisedExc.requestError message
    else
      RaisedExc.requestError message

/-- Modelled from the spec: the reconstruction fallback chain of §4.5(b) —
"tried first with the originating request attached, then with message alone,
then falling back to a generic transport-error kind if neither construction
succeeds."  The middle step of this chain (surfacing the captured kind built
from the message alone) has no working counterpart in
`src/dvd_rw/models.py`; this definition follows the spec's words and exists to
be compared with `reconstruct_and_raise`, the embedding of the source. -/
def reconstruct_spec (cls : ExcClass) (message : String) : RaisedExc :=
  if cls.ctor_accepts_request then
    RaisedExc.ofKind cls message true
  else if cls.ctor_accepts_message_only then
    RaisedExc.ofKind cls message false
  else
    RaisedExc.requestError message

/-- The scan of `get_response`'s loop (lines 149-153) over `_records` output:
first entry that is unconsumed **and** a `Response`; consumed or
exception-valued entries are passed over without any mutation. -/
def get_response_scan (counts : Nat → Nat) :
    List (Nat × RecValue) → Option (Nat × Response)
  | [] => none
  | (i, v) :: rest =>
    if counts i < 1 then
      match v with
      | RecValue.response r => some (i, r)
      | RecValue.excInfo _ => get_response_scan counts rest
    else get_response_scan counts rest

/-- `DVD.get_response` (lines 147-153). -/
def get_response (d : DVD) (request : Request) : Option Response × DVD :=
  match get_response_scan d.match_counts (records d request) with
  | some (i, r) => (some r, consume d i)
  | none => (none, d)

/-- The scan of `get_request`'s loop (lines 157-159): first unconsumed entry,
of either kind. -/
def get_request_scan (counts : Nat → Nat) :
    List (Nat × RecValue) → Option (Nat × RecValue)
  | [] => none
  | (i, v) :: rest =>
    if counts i < 1 then some (i, v) else get_request_scan counts rest

/-- The three observable results of `get_request`: a replayed response, a
raised reconstructed exception, or `None`. -/
inductive Replayed where
  | response (r : Response)
  | raised (e : RaisedExc)
  | missing
deriving DecidableEq, Repr

/-- What `get_request` does with the selected entry (lines 160-176). -/
def outcome_of (v : RecValue) : Replayed :=
  match v with
  | RecValue.response r => Replayed.response r
  | RecValue.excInfo e => Replayed.raised (reconstruct_and_raise e.exc_type e.message)

/-- `DVD.get_request` (lines 155-178): consume the first unconsumed matching
entry and surface its outcome; `None` when there is none. -/
def get_request (d : DVD) (request : Request) : Replayed × DVD :=
  match get_request_scan d.match_counts (records d request) with
  | some iv => (outcome_of iv.2, consume d iv.1)
  | none => (Replayed.missing, d)

/-- `DVDLoader.load` (loader.py lines 21-46), with the file system abstracted:
`stored` is the parsed content of the file when it exists.  A missing file
yields a fresh writable cassette; otherwise the loader overrides the matcher
configuration, marks the cassette replay-only, and rebuilds the index. -/
def load (stored : Option DVD) (m : List Matcher)
    (extra : List (Request → Request → Bool)) : DVD :=
  match stored with
  | none => fresh_dvd m extra
  | some d =>
    rebuild_index { d with match_on := m, extra_matchers := extra, from_file := true }

/-! ## Spec-modelled parts of the repository missing from `src/`

The unit tests (`test_filter_headers.py`, `test_before_hook_symmetry.py`,
`test_before_record_response.py`, `test_patcher_httpx*.py`) construct `DVD`s
with `filter_headers` / `before_record_request` configuration and exercise an
httpx patcher (`dvd_rw/patcher.py`, imported by `loader.py`), but that code is
not present under `src/`.  The definitions below model those missing pieces
from the spec's words (§4.3 steps 2-3, §4.4 step 1, §4.6). -/

/-- Modelled from the spec: the `filter_headers` configuration of §4.3 step 2
("remove all header pairs whose name matches case-insensitively") is missing
from `src/dvd_rw/models.py` (only `test_filter_headers.py` references it).
A header pair survives when no configured name equals its name
case-insensitively. -/
def filter_headers (fh : List String) (r : Request) : Request :=
  { r with
    headers := r.headers.filter (fun nv => !(fh.any (fun n => lower_str n = lower_str nv.1))) }

/-- Modelled from the spec: recording on a cassette configured with
`filter_headers` (§4.3 step 2: the filtered request "is what gets stored,
indexed, and passed to hooks"); delegates to the source-embedded
`record_request`. -/
def record_request_filtered (fh : List String) (d : DVD) (request : Request)
    (value : RecordInput) : Except RecordError DVD :=
  record_request d (filter_headers fh request) value

/-- Modelled from the spec: replay on a cassette configured with
`filter_headers` (§4.4 step 1: "Apply header filtering to the incoming request
identically to recording, so that matching is symmetric"). -/
def get_response_filtered (fh : List String) (d : DVD) (request : Request) :
    Option Response × DVD :=
  get_response d (filter_headers fh request)

/-- Result of recording through a configured `beforeRecordRequest` hook:
either the cassette with the transformed request recorded, or the sentinel
"do not record this interaction". -/
inductive HookedRecord where
  | recorded (d : DVD)
  | suppressed

/-- Modelled from the spec: `beforeRecordRequest` (§4.3 step 3) is missing
from `src/dvd_rw/models.py` (only the unit tests configure it).  The hook
returns `none` for the suppression sentinel, otherwise the transformed request
is what gets stored and indexed. -/
def record_request_hooked (hook : Request → Option Request) (d : DVD)
    (request : Request) (value : RecordInput) : Except RecordError HookedRecord :=
  if d.from_file then Except.error RecordError.cannotRecord
  else
    match hook request with
    | none => Except.ok HookedRecord.suppressed
    | some t => Except.ok (HookedRecord.recorded (record_entry d t (to_rec_value value)))

/-- Modelled from the spec: replay with a configured `beforeRecordRequest`
hook applies the same transform to the incoming request before matching
(§8: "applied at recording time is exactly the basis for replay matching");
a suppressed request is passed through without consulting the cassette
(§4.6 pass-through exception). -/
def get_response_hooked (hook : Request → Option Request) (d : DVD)
    (request : Request) : Option Response × DVD :=
  match hook request with
  | none => (none, d)
  | some t => get_response d t

/-- The observable action `dispatch` returns to the interception adapter. -/
inductive DispatchAction where
  | replayed (r : Response)
  | replayedFailure (e : RaisedExc)
  | recorded (v : RecValue)
  | passthrough
  | noMatchingRecording
deriving Repr

/-- Modelled from the spec: `push` of the Active-Cassette Stack (§4.6);
`patcher.push_dvd` is imported by `loader.py` but `patcher.py` is not under
`src/`.  The stack is a LIFO list with its top at the head. -/
def push_dvd (d : DVD) (s : List DVD) : List DVD :=
  d :: s

/-- Modelled from the spec: `pop` of the Active-Cassette Stack (§4.6); the
popped cassette must be the current top, so popping removes the head. -/
def pop_dvd : List DVD → List DVD
  | [] => []
  | _ :: rest => rest

/-- Modelled from the spec: `dispatch` (§4.6) — consult only the topmost
cassette; a replay-only top resolves via `get_request` and a miss is
`NoMatchingRecording` (never a fallthrough to outer cassettes or the network);
a writable top performs the real call (`live`), records its outcome and
returns it.  An empty stack means no interception. -/
def dispatch (live : Request → RecValue) (s : List DVD) (request : Request) :
    DispatchAction × List DVD :=
  match s with
  | [] => (DispatchAction.passthrough, [])
  | top :: rest =>
    if top.from_file then
      match get_request top request with
      | (Replayed.response r, top2) => (DispatchAction.replayed r, top2 :: rest)
      | (Replayed.raised e, top2) => (DispatchAction.replayedFailure e, top2 :: rest)
      | (Replayed.missing, top2) => (DispatchAction.noMatchingRecording, top2 :: rest)
    else
      match record_request top request (RecordInput.value (live request)) with
      | Except.ok top2 => (DispatchAction.recorded (live request), top2 :: rest)
      | Except.error _ => (DispatchAction.passthrough, top :: rest)

/-! ## Concrete data for witnesses and counterexamples -/

/-- A sample response body-less 200. -/
def resp_a : Response := ⟨200, [("X-Mode", "record")], none⟩

def resp_b : Response := ⟨200, [("X-Other", "1")], some [104, 105]⟩

/-- A request matching nothing special: `GET https://example.com/items`. -/
def req_items : Request := ⟨[], "GET", "https://example.com/items"⟩

/-- An exception class that can be built from `(message, request=...)`
(like `httpx.ConnectError`). -/
def cls_full : ExcClass := ⟨true, true⟩

/-- An exception class that rejects the `request` keyword but constructs from
the message alone (like `builtins.ValueError`). -/
def cls_msg_only : ExcClass := ⟨false, true⟩

/-- Cassette with a single failure entry for `req_items`, recorded once. -/
def dvd_one_exc : DVD :=
  record_entry (fresh_dvd default_match_on []) req_items
    (RecValue.excInfo ⟨cls_full, "conn failed"⟩)

/-- Cassette with a single response entry for `req_items`, recorded once. -/
def dvd_one_resp : DVD :=
  record_entry (fresh_dvd default_match_on []) req_items (RecValue.response resp_a)

/-- Cassette with a failure entry whose class rejects the `request` keyword. -/
def dvd_exc_msg_only : DVD :=
  record_entry (fresh_dvd default_match_on []) req_items
    (RecValue.excInfo ⟨cls_msg_only, "boom"⟩)

/-- Cassette with two identical recordings for `req_items` (duplicate
interactions, as when polling the same endpoint twice). -/
def dvd_two_resp : DVD :=
  record_entry dvd_one_resp req_items (RecValue.response resp_b)

/-- Cassette with a failure entry (index 0) followed by a response entry
(index 1), both matching `req_items`. -/
def dvd_exc_then_resp : DVD :=
  record_entry dvd_one_exc req_items (RecValue.response resp_a)

/-- A cassette loaded from a file containing one recorded interaction:
replay-only. -/
def dvd_loaded : DVD :=
  load (some dvd_one_resp) default_match_on []

/-- An empty cassette loaded from a file: replay-only and containing
nothing. -/
def dvd_replay_empty : DVD :=
  load (some (fresh_dvd default_match_on [])) default_match_on []

/-- Query-string key order: `?a=1&b=2` … -/
def req_q_ab : Request := ⟨[], "GET", "https://example.com/p?a=1&b=2"⟩

/-- … versus `?b=2&a=1` (the same mapping, keys in the other order). -/
def req_q_ba : Request := ⟨[], "GET", "https://example.com/p?b=2&a=1"⟩

/-- Value order within one key: `?a=1&a=2` … -/
def req_q_v12 : Request := ⟨[], "GET", "https://example.com/p?a=1&a=2"⟩

/-- … versus `?a=2&a=1`. -/
def req_q_v21 : Request := ⟨[], "GET", "https://example.com/p?a=2&a=1"⟩

/-- The `beforeRecordRequest` hook of the spec's §8 example: normalize every
request URL to a fixed canonical value. -/
def canonical_hook : Request → Option Request :=
  fun r => some ⟨r.headers, r.method, "https://example.com/canonical"⟩

/-- The recording-time request of the §8 hook example. -/
def req_hook_rec : Request :=
  ⟨[("X-Test", "1")], "GET", "https://other.example.org/some/path?x=1"⟩

/-- The unrelated lookup request of the §8 hook example. -/
def req_hook_lookup : Request :=
  ⟨[("X-Test", "1")], "GET", "https://another.host/elsewhere?utm=tracking"⟩

/-- The canonical transformed request both of the above map to. -/
def req_canonical : Request :=
  ⟨[("X-Test", "1")], "GET", "https://example.com/canonical"⟩

/-- Header-filtering example from the spec's §8: recording request. -/
def req_auth : Request :=
  ⟨[("Authorization", "Bearer abc"), ("X-Other", "1")], "GET",
   "https://example.com/api/items?id=1"⟩

/-- Header-filtering example: lookup request differing only in the letter-case
of the filtered header. -/
def req_auth_upper : Request :=
  ⟨[("AUTHORIZATION", "Bearer abc"), ("X-Other", "1")], "GET",
   "https://example.com/api/items?id=1"⟩

/-- A constant live-call oracle for dispatch witnesses. -/
def live_const : Request → RecValue :=
  fun _ => RecValue.response resp_b

/-! ## Basic lemmas about the replay operations -/

/-- Consuming an entry does not change which entries match a request:
`_records` reads only the index, the matcher configuration and the extra
matchers, never `_match_counts`. -/
theorem records_consume (d : DVD) (i : Nat) (q : Request) :
    records (consume d i) q = records d q := rfl

theorem consume_counts_self (d : DVD) (i : Nat) :
    (consume d i).match_counts i = d.match_counts i + 1 := by
  simp [consume]

theorem consume_counts_other (d : DVD) (i j : Nat) (h : j ≠ i) :
    (consume d i).match_counts j = d.match_counts j := by
  simp [consume, h]

/-- Recording into a cassette whose bucket for the recorded key is empty and
which has no extra matchers makes the new entry the unique match for its own
request. -/
theorem records_record_entry (d : DVD) (t : Request) (v : RecValue)
    (hempty : d.hashed_requests (get_request_key d t) = [])
    (hex : d.extra_matchers = []) :
    records (record_entry d t v) t = [(d.recorded_requests.length, v)] := by
  have hempty2 : d.hashed_requests (d.match_on.map (fun m => hash_matcher m t)) = [] := hempty
  simp [records, record_entry, get_request_key, hempty2, hex]

/-- `record_entry` leaves the consumption counters untouched. -/
theorem record_entry_counts (d : DVD) (t : Request) (v : RecValue) :
    (record_entry d t v).match_counts = d.match_counts := rfl

/-- A single matching unconsumed response entry is returned and consumed. -/
theorem get_response_single (d : DVD) (q : Request) (i : Nat) (r : Response)
    (h : records d q = [(i, RecValue.response r)]) (hc : d.match_counts i = 0) :
    get_response d q = (some r, consume d i) := by
  unfold get_response
  rw [h]
  simp [get_response_scan, hc]

/-- A single matching entry that is already consumed yields `None` and no
state change. -/
theorem get_response_exhausted (d : DVD) (q : Request) (i : Nat) (v : RecValue)
    (h : records d q = [(i, v)]) (hc : 1 ≤ d.match_counts i) :
    get_response d q = (none, d) := by
  unfold get_response
  rw [h]
  have hlt : ¬ d.match_counts i < 1 := by omega
  simp [get_response_scan, hlt]

/-- A single matching unconsumed entry is consumed by `get_request` and its
outcome surfaced. -/
theorem get_request_single (d : DVD) (q : Request) (i : Nat) (v : RecValue)
    (h : records d q = [(i, v)]) (hc : d.match_counts i = 0) :
    get_request d q = (outcome_of v, consume d i) := by
  unfold get_request
  rw [h]
  simp [get_request_scan, hc]

/-- A single matching entry that is already consumed: `get_request` returns
`None` and no state change. -/
theorem get_request_exhausted (d : DVD) (q : Request) (i : Nat) (v : RecValue)
    (h : records d q = [(i, v)]) (hc : 1 ≤ d.match_counts i) :
    get_request d q = (Replayed.missing, d) := by
  unfold get_request
  rw [h]
  have hlt : ¬ d.match_counts i < 1 := by omega
  simp [get_request_scan, hlt]

/-! ## Claim C6 — replay-only write protection -/

/-- Claim C6: for every cassette with `from_file` true and every
request/outcome pair, `record_request` raises `CannotRecord` — in this pure
embedding the call returns `Except.error` and produces no successor state, so
the cassette is left completely unchanged: the guard on line 135 precedes
every mutation of `record_request` (lines 140-145), so no entry, index bucket,
consumption counter or dirty flag is touched. -/
theorem replay_only_write_protection (d : DVD) (q : Request) (v : RecordInput)
    (h : d.from_file = true) :
    record_request d q v = Except.error RecordError.cannotRecord := by
  simp [record_request, h]

/-- Witness for C6: a cassette loaded from a file is replay-only and
recording into it fails with `CannotRecord`. -/
theorem replay_only_write_protection_witness :
    dvd_loaded.from_file = true
    ∧ record_request dvd_loaded req_items (RecordInput.value (RecValue.response resp_b))
        = Except.error RecordError.cannotRecord :=
  ⟨by decide,
   replay_only_write_protection dvd_loaded req_items
     (RecordInput.value (RecValue.response resp_b)) (by decide)⟩

/-! ## Claim C2 — exception reconstruction fallback chain (code bug) -/

/-- Claim C2 (code bug): the spec's fallback chain ("tried first with the
originating request attached, then with message alone, then falling back to a
generic transport-error kind if neither construction succeeds") is what the
nested `try`/`except` of `get_request` (models.py lines 170-176) clearly
attempts, but the bare `except Exception` also catches the successfully
raised `exc_cls(message)`, so the message-only step never surfaces the
captured kind: for a captured class that rejects the `request` keyword but
constructs from the message alone (such as `builtins.ValueError`), the code
surfaces the generic `httpx.RequestError` fallback where the claim requires
the captured kind built from the message alone.  The spec-modelled chain
(`reconstruct_spec`) differs from the source embedding exactly there. -/
theorem exception_fallback_chain_bug :
    reconstruct_and_raise cls_msg_only "boom" = RaisedExc.requestError "boom"
    ∧ reconstruct_spec cls_msg_only "boom" = RaisedExc.ofKind cls_msg_only "boom" false
    ∧ reconstruct_and_raise cls_msg_only "boom" ≠ reconstruct_spec cls_msg_only "boom"
    ∧ (get_request dvd_exc_msg_only req_items).1
        = Replayed.raised (RaisedExc.requestError "boom")
    ∧ reconstruct_and_raise cls_full "conn failed"
        = RaisedExc.ofKind cls_full "conn failed" true := by
  decide

/-! ## Claim C5 — query fingerprint and ordering (corrected) -/

/-- Claim C5 counterexample: the claim states that two requests whose query
strings parse to equal mappings of key to ordered value list receive the same
fingerprint even if the keys appear in different order.  `req_q_ab`
(`?a=1&b=2`) and `req_q_ba` (`?b=2&a=1`) parse to equal mappings (their
parsed query lists are permutations of one another, with the same value list
under each key) and agree on every other match field, yet their fingerprints
under the default configuration (which includes `Matcher.query`) differ,
because the hasher of lines 67-69 serializes the parsed dict's items in key
first-appearance order. -/
theorem query_key_order_counterexample :
    List.Perm req_q_ab.query req_q_ba.query
    ∧ req_q_ab.headers = req_q_ba.headers
    ∧ req_q_ab.method = req_q_ba.method
    ∧ req_q_ab.host = req_q_ba.host
    ∧ req_q_ab.path = req_q_ba.path
    ∧ req_q_ab.scheme = req_q_ba.scheme
    ∧ get_request_key (fresh_dvd default_match_on []) req_q_ab
        ≠ get_request_key (fresh_dvd default_match_on []) req_q_ba := by
  decide

/-- Claim C5 (amended): the query fingerprint compares the parsed query as an
ordered structure — two requests receive the same query projection iff their
query strings parse to identical ordered mappings (keys in first-appearance
order, each with its ordered value list); both a difference in the order of
values within one key's list and a difference in the first-appearance order
of keys yield different fingerprints. -/
theorem query_fingerprint_ordered :
    (∀ r s : Request,
      hash_matcher Matcher.query r = hash_matcher Matcher.query s ↔ r.query = s.query)
    ∧ get_request_key (fresh_dvd default_match_on []) req_q_v12
        ≠ get_request_key (fresh_dvd default_match_on []) req_q_v21 := by
  constructor
  · intro r s
    simp [hash_matcher]
  · decide

/-! ## Claim C1 — single-use replay (corrected) -/

/-- Claim C1 counterexample: the claim quantifies over both resolve entry
points (`get_request` or `get_response`).  For an entry recorded exactly once
whose stored outcome is a captured failure, the first matching resolve call,
when it is `get_response`, does not return the entry's outcome and does not
increment its consumption counter: on `dvd_one_exc` (one failure entry,
recorded once, matching `req_items`) the first `get_response` call returns
`None` and leaves the counter at 0. -/
theorem single_use_first_resolve_counterexample :
    records dvd_one_exc req_items
        = [(0, RecValue.excInfo ⟨cls_full, "conn failed"⟩)]
    ∧ (get_response dvd_one_exc req_items).1 = none
    ∧ (get_response dvd_one_exc req_items).2.match_counts 0 = 0 := by
  decide

/-- Claim C1 (amended): for every cassette and every entry recorded exactly
once (the unique match for the incoming request, not yet consumed), the first
`get_request` call matching it returns the entry's outcome and increments the
consumption counter to 1, and every subsequent matching resolve call
(`get_request` or `get_response`) with no intervening recording returns
`notFound`; the same holds for a first `get_response` call when the entry's
outcome is a `Response` (a captured-failure entry is delivered only by
`get_request`; `get_response` passes it over unconsumed). -/
theorem single_use_replay (d : DVD) (q : Request) (i : Nat) (v : RecValue)
    (h : records d q = [(i, v)]) (hc : d.match_counts i = 0) :
    get_request d q = (outcome_of v, consume d i)
    ∧ (consume d i).match_counts i = 1
    ∧ get_request (consume d i) q = (Replayed.missing, consume d i)
    ∧ get_response (consume d i) q = (none, consume d i)
    ∧ ∀ r, v = RecValue.response r → get_response d q = (some r, consume d i) := by
  have hc1 : (consume d i).match_counts i = 1 := by
    rw [consume_counts_self, hc]
  have hrec : records (consume d i) q = [(i, v)] := by
    rw [records_consume, h]
  refine ⟨get_request_single d q i v h hc, hc1, ?_, ?_, ?_⟩
  · exact get_request_exhausted (consume d i) q i v hrec (by omega)
  · exact get_response_exhausted (consume d i) q i v hrec (by omega)
  · intro r hr
    subst hr
    exact get_response_single d q i r h hc

/-- Witness for the amended C1 at a concrete single-entry cassette. -/
theorem single_use_replay_witness :
    (records dvd_one_resp req_items = [(0, RecValue.response resp_a)]
      ∧ dvd_one_resp.match_counts 0 = 0)
    ∧ get_request dvd_one_resp req_items
        = (outcome_of (RecValue.response resp_a), consume dvd_one_resp 0)
    ∧ get_request (consume dvd_one_resp 0) req_items
        = (Replayed.missing, consume dvd_one_resp 0) :=
  ⟨⟨by decide, by decide⟩,
   (single_use_replay dvd_one_resp req_items 0 (RecValue.response resp_a)
      (by decide) (by decide)).1,
   (single_use_replay dvd_one_resp req_items 0 (RecValue.response resp_a)
      (by decide) (by decide)).2.2.1⟩

/-! ## Decomposition lemmas for the replay scans -/

/-- When `get_request`'s loop selects an entry, everything before it in
candidate order was already consumed, and the selected entry was not. -/
theorem get_request_scan_some (counts : Nat → Nat) :
    ∀ (l : List (Nat × RecValue)) (p : Nat × RecValue),
      get_request_scan counts l = some p →
      ∃ l1 l2, l = l1 ++ p :: l2 ∧ (∀ e ∈ l1, 1 ≤ counts e.1) ∧ counts p.1 = 0 := by
  intro l
  induction l with
  | nil => intro p h; simp [get_request_scan] at h
  | cons e t ih =>
    intro p h
    obtain ⟨j, w⟩ := e
    by_cases hc : counts j < 1
    · simp [get_request_scan, hc] at h
      subst h
      exact ⟨[], t, rfl, by simp, show counts j = 0 by omega⟩
    · simp only [get_request_scan, if_neg hc] at h
      obtain ⟨l1, l2, hl, h1, h0⟩ := ih p h
      refine ⟨(j, w) :: l1, l2, by simp [hl], ?_, h0⟩
      intro a ha
      rcases List.mem_cons.mp ha with ha | ha
      · subst ha; exact show 1 ≤ counts j by omega
      · exact h1 a ha

/-- When `get_request`'s loop finds nothing, every candidate was consumed. -/
theorem get_request_scan_none (counts : Nat → Nat) :
    ∀ l : List (Nat × RecValue),
      get_request_scan counts l = none → ∀ e ∈ l, 1 ≤ counts e.1 := by
  intro l
  induction l with
  | nil => intro _ e he; simp at he
  | cons a t ih =>
    intro h e he
    obtain ⟨j, w⟩ := a
    by_cases hc : counts j < 1
    · simp [get_request_scan, hc] at h
    · simp only [get_request_scan, if_neg hc] at h
      rcases List.mem_cons.mp he with he | he
      · subst he; exact show 1 ≤ counts j by omega
      · exact ih h e he

/-- When `get_response`'s loop selects an entry, it is an unconsumed response
entry, and everything before it in candidate order was either already
consumed or a captured-failure entry. -/
theorem get_response_scan_some (counts : Nat → Nat) :
    ∀ (l : List (Nat × RecValue)) (i : Nat) (r : Response),
      get_response_scan counts l = some (i, r) →
      ∃ l1 l2, l = l1 ++ (i, RecValue.response r) :: l2
        ∧ (∀ e ∈ l1, 1 ≤ counts e.1 ∨ ∃ ex, e.2 = RecValue.excInfo ex)
        ∧ counts i = 0 := by
  intro l
  induction l with
  | nil => intro i r h; simp [get_response_scan] at h
  | cons e t ih =>
    intro i r h
    obtain ⟨j, w⟩ := e
    by_cases hc : counts j < 1
    · cases w with
      | response rr =>
        simp [get_response_scan, hc] at h
        obtain ⟨hj, hr⟩ := h
        subst hj; subst hr
        exact ⟨[], t, rfl, by simp, by omega⟩
      | excInfo ex =>
        simp only [get_response_scan, if_pos hc] at h
        obtain ⟨l1, l2, hl, h1, h0⟩ := ih i r h
        refine ⟨(j, RecValue.excInfo ex) :: l1, l2, by simp [hl], ?_, h0⟩
        intro a ha
        rcases List.mem_cons.mp ha with ha | ha
        · subst ha; exact Or.inr ⟨ex, rfl⟩
        · exact h1 a ha
    · simp only [get_response_scan, if_neg hc] at h
      obtain ⟨l1, l2, hl, h1, h0⟩ := ih i r h
      refine ⟨(j, w) :: l1, l2, by simp [hl], ?_, h0⟩
      intro a ha
      rcases List.mem_cons.mp ha with ha | ha
      · subst ha; exact Or.inl (show 1 ≤ counts j by omega)
      · exact h1 a ha

/-- When `get_response`'s loop finds nothing, every matching response entry
was already consumed. -/
theorem get_response_scan_none (counts : Nat → Nat) :
    ∀ l : List (Nat × RecValue),
      get_response_scan counts l = none →
      ∀ i r, (i, RecValue.response r) ∈ l → 1 ≤ counts i := by
  intro l
  induction l with
  | nil => intro _ i r h; simp at h
  | cons a t ih =>
    intro h i r hm
    obtain ⟨j, w⟩ := a
    by_cases hc : counts j < 1
    · cases w with
      | response rr => simp [get_response_scan, hc] at h
      | excInfo ex =>
        simp only [get_response_scan, if_pos hc] at h
        rcases List.mem_cons.mp hm with hm | hm
        · exact absurd (congrArg Prod.snd hm) (by simp)
        · exact ih h i r hm
    · simp only [get_response_scan, if_neg hc] at h
      rcases List.mem_cons.mp hm with hm | hm
      · have hij : i = j := by
          have := congrArg Prod.fst hm
          simpa using this
        subst hij; exact show 1 ≤ counts i by omega
      · exact ih h i r hm

/-! ## Claim C4 — deterministic tie-break by recording order -/

/-- Claim C4: whenever several unconsumed entries all match an incoming
request (same fingerprint and all extra predicates hold), `resolve`
(`get_request`, the outcome-returning resolve of §4.4) selects and consumes
the one with the smallest sequence index.  The hypothesis that the candidate
list carries strictly increasing sequence indices is the bucket-order
invariant maintained by `record_request` and `rebuild_index`, which only ever
append with the next sequence index. -/
theorem tie_break_recording_order (d : DVD) (q : Request)
    (hs : (records d q).Pairwise (fun a b => a.1 < b.1))
    (i : Nat) (v : RecValue)
    (hm : (i, v) ∈ records d q) (hc : d.match_counts i = 0) :
    ∃ p : Nat × RecValue, p ∈ records d q ∧ d.match_counts p.1 = 0
      ∧ (∀ e ∈ records d q, d.match_counts e.1 = 0 → p.1 ≤ e.1)
      ∧ get_request d q = (outcome_of p.2, consume d p.1) := by
  cases hscan : get_request_scan d.match_counts (records d q) with
  | none =>
    have h2 : 1 ≤ d.match_counts i :=
      get_request_scan_none d.match_counts (records d q) hscan (i, v) hm
    omega
  | some p =>
    obtain ⟨l1, l2, hl, h1, h0⟩ :=
      get_request_scan_some d.match_counts (records d q) p hscan
    refine ⟨p, ?_, h0, ?_, ?_⟩
    · rw [hl]; exact List.mem_append_right _ (List.mem_cons_self _ _)
    · intro e he hce
      rw [hl] at he hs
      rcases List.mem_append.mp he with hin | hin
      · have := h1 e hin; omega
      · rcases List.mem_cons.mp hin with hin | hin
        · rw [hin]
        · obtain ⟨-, hp, -⟩ := List.pairwise_append.mp hs
          exact le_of_lt ((List.pairwise_cons.mp hp).1 e hin)
    · unfold get_request
      rw [hscan]

/-- Witness for C4: two identical recordings replayed in recording order —
the entry with index 0 is selected first. -/
theorem tie_break_recording_order_witness :
    ((records dvd_two_resp req_items).Pairwise (fun a b => a.1 < b.1)
      ∧ (0, RecValue.response resp_a) ∈ records dvd_two_resp req_items
      ∧ dvd_two_resp.match_counts 0 = 0)
    ∧ ∃ p : Nat × RecValue, p ∈ records dvd_two_resp req_items
        ∧ dvd_two_resp.match_counts p.1 = 0
        ∧ (∀ e ∈ records dvd_two_resp req_items, dvd_two_resp.match_counts e.1 = 0 → p.1 ≤ e.1)
        ∧ get_request dvd_two_resp req_items = (outcome_of p.2, consume dvd_two_resp p.1) :=
  ⟨⟨by decide, by decide, by decide⟩,
   tie_break_recording_order dvd_two_resp req_items (by decide) 0
     (RecValue.response resp_a) (by decide) (by decide)⟩

/-! ## Claim C10 — `get_response` skips failure entries without consuming -/

/-- Claim C10: `get_response` returns the earliest unconsumed matching entry
whose outcome is a `Response` (and `None` when no such entry exists, with the
cassette unchanged); matching captured-failure entries are passed over with
their consumption counters untouched, so they remain available (still
unconsumed) for a later `get_request` on the same request.  The strict
index-ordering hypothesis is the bucket-order invariant of the index. -/
theorem get_response_skips_failures (d : DVD) (q : Request)
    (hs : (records d q).Pairwise (fun a b => a.1 < b.1)) :
    (∀ r d2, get_response d q = (some r, d2) →
      ∃ i, (i, RecValue.response r) ∈ records d q ∧ d.match_counts i = 0
        ∧ d2 = consume d i
        ∧ ∀ j s, (j, RecValue.response s) ∈ records d q → d.match_counts j = 0 → i ≤ j)
    ∧ ((get_response d q).1 = none →
        (get_response d q).2 = d
        ∧ ∀ j s, (j, RecValue.response s) ∈ records d q → 1 ≤ d.match_counts j)
    ∧ (∀ j ex, (j, RecValue.excInfo ex) ∈ records d q →
        ((get_response d q).2).match_counts j = d.match_counts j) := by
  cases hscan : get_response_scan d.match_counts (records d q) with
  | none =>
    have hnone : get_response d q = (none, d) := by
      unfold get_response; rw [hscan]
    refine ⟨?_, ?_, ?_⟩
    · intro r d2 h
      rw [hnone] at h
      exact absurd (congrArg Prod.fst h) (by simp)
    · intro _
      exact ⟨by rw [hnone], get_response_scan_none d.match_counts (records d q) hscan⟩
    · intro j ex _
      rw [hnone]
  | some p =>
    obtain ⟨i0, r0⟩ := p
    obtain ⟨l1, l2, hl, h1, h0⟩ :=
      get_response_scan_some d.match_counts (records d q) i0 r0 hscan
    have hres : get_response d q = (some r0, consume d i0) := by
      unfold get_response; rw [hscan]
    refine ⟨?_, ?_, ?_⟩
    · intro r d2 h
      rw [hres] at h
      have hr : r0 = r := by
        have := congrArg Prod.fst h
        simpa using this
      have hd2 : d2 = consume d i0 := (congrArg Prod.snd h).symm
      subst hr
      refine ⟨i0, by rw [hl]; exact List.mem_append_right _ (List.mem_cons_self _ _),
        h0, hd2, ?_⟩
      intro j s hm hcj
      rw [hl] at hm hs
      rcases List.mem_append.mp hm with hin | hin
      · rcases h1 _ hin with hge | ⟨ex, hex⟩
        · have hge2 : 1 ≤ d.match_counts j := hge
          omega
        · simp at hex
      · rcases List.mem_cons.mp hin with hin | hin
        · have hji : j = i0 := by
            have := congrArg Prod.fst hin
            simpa using this
          omega
        · obtain ⟨-, hp, -⟩ := List.pairwise_append.mp hs
          exact le_of_lt ((List.pairwise_cons.mp hp).1 _ hin)
    · intro h
      rw [hres] at h
      simp at h
    · intro j ex hm
      rw [hres]
      have hne : j ≠ i0 := by
        intro hji
        subst hji
        rw [hl] at hm hs
        rcases List.mem_append.mp hm with hin | hin
        · obtain ⟨-, -, hcross⟩ := List.pairwise_append.mp hs
          have h2 : j < j := hcross _ hin _ (List.mem_cons_self _ _)
          omega
        · rcases List.mem_cons.mp hin with hin | hin
          · exact absurd (congrArg Prod.snd hin) (by simp)
          · obtain ⟨-, hp, -⟩ := List.pairwise_append.mp hs
            have h2 : j < j := (List.pairwise_cons.mp hp).1 _ hin
            omega
      exact consume_counts_other d i0 j hne

/-- Witness for C10: a failure entry (index 0) followed by a response entry
(index 1), both matching; `get_response` skips the failure without consuming
it. -/
theorem get_response_skips_failures_witness :
    (records dvd_exc_then_resp req_items).Pairwise (fun a b => a.1 < b.1)
    ∧ (∀ j ex, (j, RecValue.excInfo ex) ∈ records dvd_exc_then_resp req_items →
        ((get_response dvd_exc_then_resp req_items).2).match_counts j
          = dvd_exc_then_resp.match_counts j) :=
  ⟨by decide,
   (get_response_skips_failures dvd_exc_then_resp req_items (by decide)).2.2⟩

/-! ## Claim C3 — header filtering (spec-modelled configuration) -/

/-- Claim C3: with a configured list of header names to strip, recording
stores the request with every header pair whose name matches a listed name
case-insensitively removed and all other headers untouched (in order:
the stored headers are a sublist of the original, and an original pair is
kept iff no listed name matches it case-insensitively), and replay applies
the identical filtering to the incoming request before matching — so a lookup
differing from the recording only in the presence or letter-case of filtered
headers (i.e., with the same filtered form) still matches, and single-use
consumption applies as usual.  The cassette is writable, has no extra
matchers, nothing yet recorded under the new entry's fingerprint, and a fresh
consumption counter for the new sequence index. -/
theorem header_filtering (fh : List String) (d : DVD) (q q2 : Request) (v : RecValue)
    (hw : d.from_file = false) (hex : d.extra_matchers = [])
    (hempty : d.hashed_requests (get_request_key d (filter_headers fh q)) = [])
    (hcnt : d.match_counts d.recorded_requests.length = 0)
    (hq2 : filter_headers fh q2 = filter_headers fh q) :
    record_request_filtered fh d q (RecordInput.value v)
        = Except.ok (record_entry d (filter_headers fh q) v)
    ∧ (record_entry d (filter_headers fh q) v).recorded_requests
        = d.recorded_requests ++ [(filter_headers fh q, v)]
    ∧ List.Sublist (filter_headers fh q).headers q.headers
    ∧ (∀ nv ∈ q.headers,
        (nv ∈ (filter_headers fh q).headers ↔ ∀ n ∈ fh, lower_str n ≠ lower_str nv.1))
    ∧ ∀ r, v = RecValue.response r →
        get_response_filtered fh (record_entry d (filter_headers fh q) v) q2
          = (some r,
             consume (record_entry d (filter_headers fh q) v) d.recorded_requests.length)
        ∧ (get_response_filtered fh
            (consume (record_entry d (filter_headers fh q) v)
              d.recorded_requests.length) q2).1 = none := by
  have hrecs : records (record_entry d (filter_headers fh q) v) (filter_headers fh q)
      = [(d.recorded_requests.length, v)] :=
    records_record_entry d (filter_headers fh q) v hempty hex
  refine ⟨?_, rfl, ?_, ?_, ?_⟩
  · simp [record_request_filtered, record_request, to_rec_value, hw]
  · exact List.filter_sublist _
  · intro nv hnv
    simp [filter_headers, List.mem_filter, hnv, List.any_eq_true]
  · intro r hr
    subst hr
    have hcnt2 : (record_entry d (filter_headers fh q) (RecValue.response r)).match_counts
        d.recorded_requests.length = 0 := hcnt
    constructor
    · unfold get_response_filtered
      rw [hq2]
      exact get_response_single _ _ _ _ hrecs hcnt2
    · unfold get_response_filtered
      rw [hq2]
      have hrecs2 : records
          (consume (record_entry d (filter_headers fh q) (RecValue.response r))
            d.recorded_requests.length) (filter_headers fh q)
          = [(d.recorded_requests.length, RecValue.response r)] := by
        rw [records_consume]
        exact hrecs
      have hc2 : 1 ≤ (consume (record_entry d (filter_headers fh q) (RecValue.response r))
          d.recorded_requests.length).match_counts d.recorded_requests.length := by
        rw [consume_counts_self]
        omega
      rw [get_response_exhausted _ _ _ _ hrecs2 hc2]

/-- Witness for C3 at the spec's §8 example: filter list `["authorization"]`,
recording `[("Authorization","Bearer abc"), ("X-Other","1")]` stores only
`[("X-Other","1")]`, and a lookup using `[("AUTHORIZATION","Bearer abc"),
("X-Other","1")]` still matches. -/
theorem header_filtering_witness :
    ((fresh_dvd default_match_on []).from_file = false
      ∧ filter_headers ["authorization"] req_auth_upper
          = filter_headers ["authorization"] req_auth
      ∧ (filter_headers ["authorization"] req_auth).headers = [("X-Other", "1")])
    ∧ get_response_filtered ["authorization"]
        (record_entry (fresh_dvd default_match_on [])
          (filter_headers ["authorization"] req_auth) (RecValue.response resp_b))
        req_auth_upper
      = (some resp_b,
         consume (record_entry (fresh_dvd default_match_on [])
            (filter_headers ["authorization"] req_auth) (RecValue.response resp_b))
           (fresh_dvd default_match_on []).recorded_requests.length) :=
  ⟨⟨by decide, by decide, by decide⟩,
   ((header_filtering ["authorization"] (fresh_dvd default_match_on [])
       req_auth req_auth_upper (RecValue.response resp_b)
       (by decide) rfl rfl (by decide)
       (by decide)).2.2.2.2 resp_b rfl).1⟩

/-! ## Claim C9 — `beforeRecordRequest` as the basis for replay matching
(spec-modelled hook) -/

/-- Claim C9: with a configured `beforeRecordRequest` hook, recording stores
(and indexes) the hook-transformed request, and resolve applies the same
transform to the incoming request before matching: any lookup request whose
transformed form equals the recorded entry's transformed form matches that
entry, and a second lookup with the same transformed key returns `notFound`.
Hypotheses as in C3: writable cassette, no extra matchers, empty bucket for
the transformed request's fingerprint, fresh counter for the new index. -/
theorem before_record_request_basis (hook : Request → Option Request) (d : DVD)
    (q q2 t : Request) (v : RecValue)
    (hw : d.from_file = false) (hex : d.extra_matchers = [])
    (hq : hook q = some t) (hq2 : hook q2 = some t)
    (hempty : d.hashed_requests (get_request_key d t) = [])
    (hcnt : d.match_counts d.recorded_requests.length = 0) :
    record_request_hooked hook d q (RecordInput.value v)
        = Except.ok (HookedRecord.recorded (record_entry d t v))
    ∧ (record_entry d t v).recorded_requests = d.recorded_requests ++ [(t, v)]
    ∧ ∀ r, v = RecValue.response r →
        get_response_hooked hook (record_entry d t v) q2
          = (some r, consume (record_entry d t v) d.recorded_requests.length)
        ∧ (get_response_hooked hook
            (consume (record_entry d t v) d.recorded_requests.length) q2).1 = none := by
  have hrecs : records (record_entry d t v) t = [(d.recorded_requests.length, v)] :=
    records_record_entry d t v hempty hex
  refine ⟨?_, rfl, ?_⟩
  · simp [record_request_hooked, to_rec_value, hw, hq]
  · intro r hr
    subst hr
    have hcnt2 : (record_entry d t (RecValue.response r)).match_counts
        d.recorded_requests.length = 0 := hcnt
    constructor
    · have h3 := get_response_single _ _ _ _ hrecs hcnt2
      simp [get_response_hooked, hq2, h3]
    · have hrecs2 : records
          (consume (record_entry d t (RecValue.response r)) d.recorded_requests.length) t
          = [(d.recorded_requests.length, RecValue.response r)] := by
        rw [records_consume]
        exact hrecs
      have hc2 : 1 ≤ (consume (record_entry d t (RecValue.response r))
          d.recorded_requests.length).match_counts d.recorded_requests.length := by
        rw [consume_counts_self]
        omega
      have h3 := get_response_exhausted _ _ _ _ hrecs2 hc2
      simp [get_response_hooked, hq2, h3]

/-- Witness for C9 at the spec's §8 example: the hook canonicalizes every URL
to `https://example.com/canonical`; recording a request for
`https://other.example.org/some/path?x=1` and looking up the unrelated
`https://another.host/elsewhere?utm=tracking` matches; the second lookup
returns `notFound`. -/
theorem before_record_request_basis_witness :
    (canonical_hook req_hook_rec = some req_canonical
      ∧ canonical_hook req_hook_lookup = some req_canonical)
    ∧ get_response_hooked canonical_hook
        (record_entry (fresh_dvd default_match_on []) req_canonical
          (RecValue.response resp_a)) req_hook_lookup
      = (some resp_a,
         consume (record_entry (fresh_dvd default_match_on []) req_canonical
            (RecValue.response resp_a))
           (fresh_dvd default_match_on []).recorded_requests.length)
    ∧ (get_response_hooked canonical_hook
        (consume (record_entry (fresh_dvd default_match_on []) req_canonical
            (RecValue.response resp_a))
          (fresh_dvd default_match_on []).recorded_requests.length)
        req_hook_lookup).1 = none :=
  ⟨⟨by decide, by decide⟩,
   ((before_record_request_basis canonical_hook (fresh_dvd default_match_on [])
       req_hook_rec req_hook_lookup req_canonical (RecValue.response resp_a)
       (by decide) rfl (by decide) (by decide) rfl
       (by decide)).2.2 resp_a rfl).1,
   ((before_record_request_basis canonical_hook (fresh_dvd default_match_on [])
       req_hook_rec req_hook_lookup req_canonical (RecValue.response resp_a)
       (by decide) rfl (by decide) (by decide) rfl
       (by decide)).2.2 resp_a rfl).2⟩

/-! ## Claim C8 — rebuilt index is equivalent to the incremental index -/

/-- Appending one entry extends every bucket of the rebuilt index exactly the
way `record_request` extends it: at the end of the entry's own bucket, with
the next sequence index. -/
theorem build_index_from_append (m : List Matcher) (q : Request) (v : RecValue) :
    ∀ (l : List (Request × RecValue)) (i : Nat) (k : Key),
      build_index_from m i (l ++ [(q, v)]) k
        = build_index_from m i l k
          ++ (if k = key_of m q then [(i + l.length, q, v)] else []) := by
  intro l
  induction l with
  | nil =>
    intro i k
    simp [build_index_from]
  | cons e t ih =>
    intro i k
    obtain ⟨q1, v1⟩ := e
    have harith : i + 1 + t.length = i + (t.length + 1) := by omega
    show (if k = key_of m q1 then [(i, q1, v1)] else [])
          ++ build_index_from m (i + 1) (t ++ [(q, v)]) k
        = ((if k = key_of m q1 then [(i, q1, v1)] else [])
            ++ build_index_from m (i + 1) t k)
          ++ (if k = key_of m q then [(i + (t.length + 1), q, v)] else [])
    rw [ih (i + 1), harith]
    exact (List.append_assoc _ _ _).symm

/-- The incremental-index invariant: the bucket map equals the index rebuilt
from the recorded sequence, and no entry is consumed.  It holds for a fresh
cassette and is preserved by the mutation of `record_request`. -/
def IncrementalInv (d : DVD) : Prop :=
  (∀ k, d.hashed_requests k = build_index_from d.match_on 0 d.recorded_requests k)
  ∧ d.match_counts = fun _ => 0

theorem incremental_inv_fresh (m : List Matcher)
    (extra : List (Request → Request → Bool)) : IncrementalInv (fresh_dvd m extra) :=
  ⟨fun _ => rfl, rfl⟩

theorem incremental_inv_record_entry (d : DVD) (q : Request) (v : RecValue)
    (h : IncrementalInv d) : IncrementalInv (record_entry d q v) := by
  obtain ⟨h1, h2⟩ := h
  constructor
  · intro k
    have hkey : key_of d.match_on q = get_request_key d q := rfl
    show (if k = get_request_key d q
        then d.hashed_requests k ++ [(d.recorded_requests.length, q, v)]
        else d.hashed_requests k)
      = build_index_from d.match_on 0 (d.recorded_requests ++ [(q, v)]) k
    rw [build_index_from_append, h1 k, hkey]
    by_cases hk : k = get_request_key d q
    · simp [hk]
    · simp [hk]
  · exact h2

theorem incremental_inv_foldl (entries : List (Request × RecValue)) :
    ∀ d : DVD, IncrementalInv d →
      IncrementalInv (List.foldl (fun a e => record_entry a e.1 e.2) d entries) := by
  induction entries with
  | nil => intro d h; exact h
  | cons e t ih =>
    intro d h
    exact ih (record_entry d e.1 e.2) (incremental_inv_record_entry d e.1 e.2 h)

/-- A cassette satisfying the incremental-index invariant is a fixed point of
`rebuild_index`. -/
theorem rebuild_index_eq_of_inv (d : DVD) (h : IncrementalInv d) :
    rebuild_index d = d := by
  obtain ⟨h1, h2⟩ := h
  obtain ⟨rec, counts, hashed, ff, dd, mo, ex⟩ := d
  have hh : hashed = fun k => build_index_from mo 0 rec k := funext fun k => h1 k
  have hc : counts = fun _ => 0 := h2
  rw [rebuild_index]
  rw [hh, hc]

/-- Claim C8: rebuilding the index (which clears all buckets and consumption
counters and re-inserts every entry in sequence order) of a cassette whose
index was built incrementally by `record_request` from a fresh cassette
reproduces that cassette exactly — the two states are equal, so their
`resolve` behavior on any subsequent sequence of lookups is identical — and
`rebuild_index` is idempotent on every cassette. -/
theorem rebuild_index_equivalence :
    (∀ d : DVD, rebuild_index (rebuild_index d) = rebuild_index d)
    ∧ (∀ (m : List Matcher) (extra : List (Request → Request → Bool))
        (entries : List (Request × RecValue)),
        rebuild_index
            (List.foldl (fun a e => record_entry a e.1 e.2) (fresh_dvd m extra) entries)
          = List.foldl (fun a e => record_entry a e.1 e.2) (fresh_dvd m extra) entries) := by
  constructor
  · intro d
    exact rebuild_index_eq_of_inv (rebuild_index d) ⟨fun _ => rfl, rfl⟩
  · intro m extra entries
    exact rebuild_index_eq_of_inv _
      (incremental_inv_foldl entries (fresh_dvd m extra) (incremental_inv_fresh m extra))

/-! ## Claim C7 — nested stack scoping (spec-modelled dispatch) -/

/-- Claim C7: while an inner cassette `B` is pushed on top of the stack,
`dispatch` consults only the topmost cassette — its action is independent of
everything below the top, and a request that `B` (replay-only) does not
contain fails with `NoMatchingRecording` even when an outer cassette `A`
matches it — and after `B` is popped, dispatch for the remaining stack is
literally dispatch with `A` back on top. -/
theorem nested_stack_scoping (live : Request → RecValue) (A B : DVD)
    (rest : List DVD) (q : Request) (hB : B.from_file = true)
    (hmiss : (get_request B q).1 = Replayed.missing) :
    (dispatch live (push_dvd B (push_dvd A rest)) q).1
        = DispatchAction.noMatchingRecording
    ∧ (∀ s1 s2 : List DVD,
        (dispatch live (push_dvd B s1) q).1 = (dispatch live (push_dvd B s2) q).1)
    ∧ dispatch live (pop_dvd (push_dvd B (push_dvd A rest))) q
        = dispatch live (push_dvd A rest) q := by
  refine ⟨?_, ?_, rfl⟩
  · rcases hgr : get_request B q with ⟨res, B2⟩
    rw [hgr] at hmiss
    simp only at hmiss
    subst hmiss
    simp [dispatch, push_dvd, hB, hgr]
  · intro s1 s2
    rcases hgr : get_request B q with ⟨res, B2⟩
    rcases hrec : record_request B q (RecordInput.value (live q)) with e | B3
    all_goals cases res
    all_goals simp [dispatch, push_dvd, hB, hgr, hrec]

/-- Witness for C7: `B` is an empty replay-only cassette, `A` contains the
request; with `B` on top the request fails with `NoMatchingRecording` rather
than falling through to `A`. -/
theorem nested_stack_scoping_witness :
    (dvd_replay_empty.from_file = true
      ∧ (get_request dvd_replay_empty req_items).1 = Replayed.missing
      ∧ (get_request dvd_one_resp req_items).1 = Replayed.response resp_a)
    ∧ (dispatch live_const (push_dvd dvd_replay_empty (push_dvd dvd_one_resp [])) req_items).1
        = DispatchAction.noMatchingRecording
    ∧ dispatch live_const (pop_dvd (push_dvd dvd_replay_empty (push_dvd dvd_one_resp [])))
          req_items
        = dispatch live_const (push_dvd dvd_one_resp []) req_items :=
  ⟨⟨by decide, by decide, by decide⟩,
   (nested_stack_scoping live_const dvd_one_resp dvd_replay_empty [] req_items
      (by decide) (by decide)).1,
   (nested_stack_scoping live_const dvd_one_resp dvd_replay_empty [] req_items
      (by decide) (by decide)).2.2⟩

end DvdRw
